import Mathlib

/-!
Shallow embedding of the gift-shop-sync service: the syncData pipeline of
src/index.js (row mapping, validity filter, transactional full-replace write,
single-flight guard, trigger surface) and the locale-aware product API of the
bilingual source variant (mapProductByLang and the products endpoint).
Machine numbers are modelled as rationals; fallible steps return Option.
-/

namespace GiftShopSync

/-- One spreadsheet cell as seen through the raw-data array: none models an
absent (undefined) cell. -/
abbrev Cell := Option String

/-- One raw sheet row, position-addressed, as delivered by the source reader. -/
abbrev RawRow := List Cell

/-- Indexing the raw-data array: an out-of-range access yields undefined. -/
def cellAt (raw : RawRow) (i : Nat) : Cell := raw.getD i none

/-- JavaScript truthiness of an optional string: undefined and the empty
string are falsy, every other string is truthy. -/
def jsStrTruthy : Cell → Bool
  | none => false
  | some s => !s.isEmpty

/-- The JS idiom that maps a falsy cell to null, used on every text column. -/
def orNull (c : Cell) : Cell := if jsStrTruthy c then c else none

/-- The JS idiom that maps a falsy cell to the empty string, used on the
price column before comma stripping. -/
def orEmpty (c : Cell) : String :=
  match c with
  | none => ""
  | some s => s

/-- Whitespace characters stripped by the JS numeric coercion (ASCII subset,
which covers every input this service receives). -/
def isJsSpace (c : Char) : Bool := c == ' ' || c == '\t' || c == '\n' || c == '\r'

/-- Strip leading and trailing whitespace from a character list. -/
def trimChars (cs : List Char) : List Char :=
  ((cs.dropWhile isJsSpace).reverse.dropWhile isJsSpace).reverse

/-- Trimming at string level, used to state trimming-based properties. -/
def trimmedString (s : String) : String := String.mk (trimChars s.toList)

/-- Decimal digit test. -/
def isDigitChar (c : Char) : Bool := '0' ≤ c && c ≤ '9'

/-- Value of a digit string read left to right. -/
def digitsToNat (cs : List Char) : Nat :=
  cs.foldl (fun a c => 10 * a + (c.toNat - 48)) 0

/-- Unsigned decimal numeral with an optional fractional part (forms such as
12, 12.5, 12., .5); anything else is not a number. -/
def parseUnsigned (cs : List Char) : Option ℚ :=
  let intPart := cs.takeWhile (fun c => c != '.')
  let rest := cs.dropWhile (fun c => c != '.')
  match rest with
  | [] =>
    if intPart.isEmpty then none
    else if intPart.all isDigitChar then some (digitsToNat intPart) else none
  | _ :: frac =>
    if frac.any (fun c => c == '.') then none
    else if !(intPart.all isDigitChar && frac.all isDigitChar) then none
    else if intPart.isEmpty && frac.isEmpty then none
    else some ((digitsToNat intPart : ℚ) + (digitsToNat frac : ℚ) / (10 : ℚ) ^ frac.length)

/-- Model of the JS numeric coercion of a string for the decimal numerals
this service receives: whitespace is trimmed, the empty string coerces to 0,
a signed decimal numeral to its value, anything else to NaN (none). -/
def jsNumberOfString (s : String) : Option ℚ :=
  let t := trimChars s.toList
  if t.isEmpty then some 0
  else
    match t with
    | '-' :: rest => (parseUnsigned rest).map (fun q => -q)
    | '+' :: rest => parseUnsigned rest
    | _ => parseUnsigned t

/-- Numeric coercion of a cell: an absent cell (undefined) coerces to NaN. -/
def jsNumberOfCell (c : Cell) : Option ℚ := c.bind jsNumberOfString

/-- JavaScript truthiness of a number: NaN and 0 are falsy. -/
def jsNumTruthy : Option ℚ → Bool
  | none => false
  | some q => decide (q ≠ 0)

/-- Removal of every comma, as the global comma replace on the price cell. -/
def stripCommas (s : String) : String := String.mk (s.toList.filter (fun c => c != ','))

/-- The mapped product record of the default-locale variant, one field per
column of the insert statement. -/
structure Product where
  id : Option ℚ
  category : Cell
  name : Cell
  price : Option ℚ
  image_url : Cell
  stock : ℚ
  status : Cell
  display_desc : Cell
  gift_detail_desc : Cell
  product_desc : Cell
  product_specs : Cell
  shipping_info : Cell
deriving Repr, DecidableEq

/-- The row mapper of syncData: positional cells are coerced exactly as in
the source (numeric id, text-or-null fields, comma-stripped numeric price,
stock defaulting to 0 when falsy or NaN). -/
def mapRow (raw : RawRow) : Product where
  id := jsNumberOfCell (cellAt raw 0)
  category := orNull (cellAt raw 1)
  name := orNull (cellAt raw 2)
  price := jsNumberOfString (stripCommas (orEmpty (cellAt raw 3)))
  image_url := orNull (cellAt raw 4)
  stock :=
    match jsNumberOfCell (cellAt raw 5) with
    | none => 0
    | some q => if q = 0 then 0 else q
  status := orNull (cellAt raw 6)
  display_desc := orNull (cellAt raw 7)
  gift_detail_desc := orNull (cellAt raw 8)
  product_desc := orNull (cellAt raw 9)
  product_specs := orNull (cellAt raw 10)
  shipping_info := orNull (cellAt raw 11)

/-- The validity filter of syncData: a mapped record is kept when its id and
its default-locale name are both truthy. -/
def keep (p : Product) : Bool := jsNumTruthy p.id && jsStrTruthy p.name

/-- Map every raw row and keep the records passing the validity filter. -/
def validProducts (rows : List RawRow) : List Product :=
  (rows.map mapRow).filter keep

/-- The products table of the relational store. -/
structure Store where
  tableExists : Bool
  rows : List Product
deriving Repr, DecidableEq

/-- The statements issued by the write phase. -/
inductive Query where
  | create
  | truncateAll
  | insertRow (p : Product)
deriving Repr, DecidableEq

/-- Effect of one statement on the transaction-pending state; none is a
statement error. Creation is create-if-absent; insertion enforces the NOT
NULL constraint on name and the primary-key constraint on id declared in the
table schema of the source. -/
def applyQuery (st : Store) : Query → Option Store
  | .create => some (if st.tableExists then st else ⟨true, []⟩)
  | .truncateAll => some { st with rows := [] }
  | .insertRow p =>
    if p.name = none then none
    else if st.rows.any (fun r => decide (r.id = p.id)) then none
    else some { st with rows := st.rows ++ [p] }

/-- Run statements in order against the transaction-pending state. The faults
list injects an external failure (network or server error) at the matching
statement position, modelling a write failure at an arbitrary point. -/
def runQueries : List Query → List Bool → Store → Option Store
  | [], _, st => some st
  | q :: qs, faults, st =>
    if faults.headD false then none
    else
      match applyQuery st q with
      | none => none
      | some st' => runQueries qs faults.tail st'

/-- The statement sequence of the write phase: ensure table, truncate, then
insert every validated record in list order. -/
def writeQueries (ps : List Product) : List Query :=
  Query.create :: Query.truncateAll :: ps.map Query.insertRow

/-- Observable outcome of one syncData call, matching the log and early
return structure of the source. -/
inductive SyncOutcome where
  | skippedAlreadyRunning
  | configInvalid
  | sourceUnavailable
  | emptyResultSet
  | writeFailed
  | success
deriving Repr, DecidableEq

/-- The write phase of syncData: begin a transaction, run the statements,
commit the pending state on success, roll back to the prior state on any
error. -/
def syncWrite (ps : List Product) (faults : List Bool) (st : Store) : SyncOutcome × Store :=
  match runQueries (writeQueries ps) faults st with
  | some st' => (.success, st')
  | none => (.writeFailed, st)

/-- The three source-related environment variables checked by syncData. -/
structure Config where
  spreadsheetId : Cell
  serviceAccountEmail : Cell
  privateKey : Cell
deriving Repr, DecidableEq

/-- Configuration is valid when all three variables are truthy. -/
def Config.valid (c : Config) : Bool :=
  jsStrTruthy c.spreadsheetId && jsStrTruthy c.serviceAccountEmail && jsStrTruthy c.privateKey

/-- One call to syncData: the guard check, the configuration check, the
source read (none models a read failure), mapping and filtering, the
empty-set early return, then the transactional write. The guard flag is
passed in as the value observed at entry; the sequential model returns after
the finally block has cleared it. -/
def syncData (running : Bool) (cfg : Config) (src : Option (List RawRow))
    (faults : List Bool) (st : Store) : SyncOutcome × Store :=
  if running then (.skippedAlreadyRunning, st)
  else if !cfg.valid then (.configInvalid, st)
  else
    match src with
    | none => (.sourceUnavailable, st)
    | some rows =>
      if (validProducts rows).isEmpty then (.emptyResultSet, st)
      else syncWrite (validProducts rows) faults st

/-- Whether the promise returned by syncData rejects. The catch block at the
end of syncData catches every error and only logs it, so the promise always
resolves and no failure is rethrown to the cron trigger, the startup timer,
or the manual route. -/
def syncDataRejects (_outcome : SyncOutcome) : Bool := false

/-- Response of the manual sync endpoint. -/
structure SyncHttpResponse where
  statusCode : Nat
  success : Bool
deriving Repr, DecidableEq

/-- The manual sync route: await syncData, answer 200 with success true when
the promise resolves, 500 with the error message when it rejects. -/
def handleSyncGet (running : Bool) (cfg : Config) (src : Option (List RawRow))
    (faults : List Bool) (st : Store) : SyncHttpResponse × Store :=
  let r := syncData running cfg src faults st
  (if syncDataRejects r.1 then ⟨500, false⟩ else ⟨200, true⟩, r.2)

/-- One stored row of the bilingual table variant, as read back by the
products endpoint: locale-independent columns plus one column per locale and
per localized field. -/
structure DbRow where
  id : Int
  category : Cell
  price : ℚ
  image_url : Cell
  stock : Int
  status : Cell
  name_zh : Cell
  display_desc_zh : Cell
  gift_detail_desc_zh : Cell
  product_desc_zh : Cell
  product_specs_zh : Cell
  shipping_info_zh : Cell
  name_en : Cell
  display_desc_en : Cell
  gift_detail_desc_en : Cell
  product_desc_en : Cell
  product_specs_en : Cell
  shipping_info_en : Cell
deriving Repr, DecidableEq

/-- One element of the data array served by the products endpoint. -/
structure ApiProduct where
  id : Int
  category : Cell
  price : ℚ
  image_url : Cell
  stock : Int
  status : Cell
  name : Cell
  display_desc : String
  gift_detail_desc : String
  product_desc : String
  product_specs : String
  shipping_info : String
deriving Repr, DecidableEq

/-- The JS idiom returning the left operand when truthy, else the right. -/
def jsOrOpt (a b : Cell) : Cell := if jsStrTruthy a then a else b

/-- The JS idiom returning the string when truthy, else the empty string. -/
def jsOrEmptyStr (a : Cell) : String := a.getD ""

/-- The locale mapper of the bilingual variant: a requested locale other
than en is treated as zh; the name column of the safe locale falls back to
the zh name, every other localized column falls back to the empty string. -/
def mapProductByLang (row : DbRow) (lang : String) : ApiProduct :=
  let safeLang := if lang = "en" then "en" else "zh"
  let field := fun (en zh : Cell) => if safeLang = "en" then en else zh
  { id := row.id
    category := row.category
    price := row.price
    image_url := row.image_url
    stock := row.stock
    status := row.status
    name := jsOrOpt (field row.name_en row.name_zh) row.name_zh
    display_desc := jsOrEmptyStr (field row.display_desc_en row.display_desc_zh)
    gift_detail_desc := jsOrEmptyStr (field row.gift_detail_desc_en row.gift_detail_desc_zh)
    product_desc := jsOrEmptyStr (field row.product_desc_en row.product_desc_zh)
    product_specs := jsOrEmptyStr (field row.product_specs_en row.product_specs_zh)
    shipping_info := jsOrEmptyStr (field row.shipping_info_en row.shipping_info_zh) }

/-- ASCII lowercasing, modelling the JS lowercase call on the lang query
parameter (the strings compared against are ASCII). -/
def jsToLowerCase (s : String) : String := String.mk (s.toList.map Char.toLower)

/-- The JS idiom defaulting a falsy query parameter to a given string. -/
def jsOrDefault (c : Cell) (d : String) : String :=
  match c with
  | none => d
  | some s => if s.isEmpty then d else s

/-- The status value selected by the products endpoint (published rows). -/
def publishedSentinel : String := "上架"

/-- The products endpoint: lowercase the lang parameter (defaulting to zh),
select the published rows, and map each through the locale mapper. -/
def apiProducts (langParam : Cell) (db : List DbRow) : List ApiProduct :=
  (db.filter (fun r => decide (r.status = some publishedSentinel))).map
    (fun r => mapProductByLang r (jsToLowerCase (jsOrDefault langParam "zh")))

namespace Guard

/-- Phase of one syncData invocation in the interleaving model: not yet
fired, running with a number of awaited operations remaining, or finished
(skipped true models the early return reporting an in-flight run, skipped
false a run that executed the pipeline to completion). -/
inductive TaskPhase where
  | pending
  | running (remaining : Nat)
  | finished (skipped : Bool)
deriving Repr, DecidableEq

/-- Whether a task currently executes the pipeline. -/
def TaskPhase.isRun : TaskPhase → Bool
  | .running _ => true
  | _ => false

/-- Shared state of two syncData invocations: the module-level guard flag
plus the phase of each invocation. -/
structure GuardState where
  guard : Bool
  t1 : TaskPhase
  t2 : TaskPhase
deriving Repr, DecidableEq

/-- One scheduler step of one invocation. A pending task runs the
synchronous prologue of syncData (guard check plus guard set, with no await
in between); a running task completes one awaited operation; completing the
last one executes the finally block clearing the guard; a finished task
takes no further steps. -/
def stepPhase (g : Bool) (ph : TaskPhase) (work : Nat) : Bool × TaskPhase :=
  match ph with
  | .pending => if g then (g, .finished true) else (true, .running work)
  | .running (k + 1) => (g, .running k)
  | .running 0 => (false, .finished false)
  | .finished b => (g, .finished b)

/-- Step the chosen invocation (false chooses the first, true the second). -/
def stepTask (w1 w2 : Nat) (s : GuardState) : Bool → GuardState
  | false =>
    let r := stepPhase s.guard s.t1 w1
    { s with guard := r.1, t1 := r.2 }
  | true =>
    let r := stepPhase s.guard s.t2 w2
    { s with guard := r.1, t2 := r.2 }

/-- Run a schedule of steps from a state. -/
def exec (w1 w2 : Nat) (s : GuardState) : List Bool → GuardState
  | [] => s
  | c :: σ => exec w1 w2 (stepTask w1 w2 s c) σ

/-- Initial state: guard clear, both invocations not yet fired. -/
def init : GuardState := ⟨false, .pending, .pending⟩

/-- Guard invariant: the flag is set exactly while some invocation runs, and
the two invocations never run at the same time. -/
def Inv (s : GuardState) : Prop :=
  s.guard = (s.t1.isRun || s.t2.isRun) ∧ ¬(s.t1.isRun = true ∧ s.t2.isRun = true)

end Guard

/-- Concrete configuration with all three variables present. -/
def goodCfg : Config := ⟨some "sheet-1", some "svc", some "key"⟩

/-- Concrete configuration missing the sheet identifier. -/
def badCfg : Config := ⟨none, some "svc", some "key"⟩

/-- A mapped record used as pre-existing store content in witnesses. -/
def oldProduct : Product := mapRow [some "7", none, some "Old"]

/-- A store holding one prior row. -/
def stPrior : Store := ⟨true, [oldProduct]⟩

/-- First row of the price parsing scenario. -/
def mugRow : RawRow := [some "1", none, some "Mug", some "9,99"]

/-- Second row of the price parsing scenario (empty name). -/
def emptyNameRow : RawRow := [some "2", none, some "", some "5.00"]

/-- First of two raw rows sharing the id 1. -/
def dupRowA : RawRow := [some "1", none, some "A"]

/-- Second of two raw rows sharing the id 1. -/
def dupRowB : RawRow := [some "1", none, some "B"]

/-- Sequential insertion into an accumulated row list, mirroring the
constraint checks of the insert statement. -/
def insertAll : List Product → List Product → Option (List Product)
  | [], acc => some acc
  | p :: ps, acc =>
    if p.name = none then none
    else if acc.any (fun r => decide (r.id = p.id)) then none
    else insertAll ps (acc ++ [p])

theorem runQueries_inserts (ps acc : List Product) :
    runQueries (ps.map Query.insertRow) [] ⟨true, acc⟩ =
      (insertAll ps acc).map (fun r => (⟨true, r⟩ : Store)) := by
  induction ps generalizing acc with
  | nil => rfl
  | cons p ps ih =>
    simp only [List.map_cons, runQueries, List.headD, insertAll, applyQuery,
      Bool.false_eq_true, if_false, List.tail]
    by_cases hn : p.name = none
    · simp [hn]
    · by_cases hd : acc.any (fun r => decide (r.id = p.id))
      · simp [hn, hd]
      · simpa [hn, hd] using ih (acc ++ [p])

theorem syncWrite_closed (ps : List Product) (st : Store) :
    syncWrite ps [] st =
      match insertAll ps [] with
      | some r => (.success, ⟨true, r⟩)
      | none => (.writeFailed, st) := by
  obtain ⟨te, rws⟩ := st
  cases te <;>
    simp [syncWrite, writeQueries, runQueries, applyQuery, runQueries_inserts] <;>
    cases insertAll ps [] <;> simp

theorem syncWrite_failed_preserves (ps : List Product) (faults : List Bool) (st : Store)
    (h : (syncWrite ps faults st).1 = .writeFailed) : (syncWrite ps faults st).2 = st := by
  unfold syncWrite at *
  cases hq : runQueries (writeQueries ps) faults st with
  | none => simp [hq]
  | some st' => simp [hq] at h

/-- Claim C1 (confirmed). Full-replace atomicity: whenever a sync pass ends
in a write failure — the fault list lets any statement of the write phase
(table creation, truncation, or any insertion) fail, and the primary-key and
not-null constraints can fail an insert intrinsically — the transaction is
rolled back and the store is left with its prior row set fully intact; no
partial state is ever committed. -/
theorem full_replace_atomicity (running : Bool) (cfg : Config) (src : Option (List RawRow))
    (faults : List Bool) (st : Store)
    (h : (syncData running cfg src faults st).1 = SyncOutcome.writeFailed) :
    (syncData running cfg src faults st).2 = st := by
  by_cases hr : running
  · simp [syncData, hr]
  · by_cases hv : cfg.valid
    · cases src with
      | none => simp [syncData, hr, hv]
      | some rows =>
        by_cases he : (validProducts rows).isEmpty
        · simp [syncData, hr, hv, he]
        · simp only [syncData, hr, hv, he, if_false, Bool.not_true, if_neg] at h ⊢
          exact syncWrite_failed_preserves _ _ _ h
    · simp [syncData, hr, hv]

/-- Witness for C1: with the first statement of the write phase failing, the
pass reports a write failure and the prior store row set survives intact. -/
theorem full_replace_atomicity_witness :
    (syncData false goodCfg (some [mugRow]) [true] stPrior).1 = SyncOutcome.writeFailed ∧
      (syncData false goodCfg (some [mugRow]) [true] stPrior).2 = stPrior :=
  ⟨by decide, full_replace_atomicity false goodCfg (some [mugRow]) [true] stPrior (by decide)⟩

/-- Claim C3 (confirmed). Empty-result protection: when the set of valid
records after mapping is empty, the run aborts with the empty-result-set
outcome before issuing any statement; the store is never truncated and its
prior contents are preserved unchanged. -/
theorem empty_result_protection (cfg : Config) (rows : List RawRow)
    (faults : List Bool) (st : Store)
    (h1 : cfg.valid = true) (h2 : validProducts rows = []) :
    syncData false cfg (some rows) faults st = (SyncOutcome.emptyResultSet, st) := by
  simp [syncData, h1, h2]

/-- Witness for C3: a source whose only row has an empty name maps to zero
valid records, and the run aborts leaving the prior store untouched. -/
theorem empty_result_protection_witness :
    Config.valid goodCfg = true ∧ validProducts [emptyNameRow] = [] ∧
      syncData false goodCfg (some [emptyNameRow]) [] stPrior =
        (SyncOutcome.emptyResultSet, stPrior) :=
  ⟨by decide, by decide,
    empty_result_protection goodCfg [emptyNameRow] [] stPrior (by decide) (by decide)⟩

/-- Claim C9 (confirmed). Idempotence: for a fixed source snapshot (and no
injected write faults), running the full sync pipeline twice in sequence
leaves the store in the identical state after each run — the second
truncate-and-reinsert reproduces exactly the state left by the first, and
every failing branch leaves the store unchanged both times. -/
theorem sync_idempotent (cfg : Config) (src : Option (List RawRow)) (st : Store) :
    (syncData false cfg src [] (syncData false cfg src [] st).2).2 =
      (syncData false cfg src [] st).2 := by
  by_cases hv : cfg.valid
  · cases src with
    | none => simp [syncData, hv]
    | some rows =>
      by_cases he : (validProducts rows).isEmpty
      · simp [syncData, hv, he]
      · simp only [syncData, hv, he, Bool.not_true, if_false, if_neg, Bool.false_eq_true,
          not_false_eq_true, syncWrite_closed]
        cases hins : insertAll (validProducts rows) [] with
        | none => simp [hins]
        | some r => simp [hins]
  · simp [syncData, hv]

theorem orNull_truthy (c : Cell) : jsStrTruthy (orNull c) = jsStrTruthy c := by
  by_cases h : jsStrTruthy c = true
  · simp only [orNull, h, if_true]
  · simp only [Bool.not_eq_true] at h
    simp only [orNull, h, Bool.false_eq_true, if_false]
    simp [jsStrTruthy, h]

theorem jsNumTruthy_iff (x : Option ℚ) :
    jsNumTruthy x = true ↔ ∃ q, x = some q ∧ q ≠ 0 := by
  cases x <;> simp [jsNumTruthy]

theorem string_isEmpty_false_iff (s : String) : s.isEmpty = false ↔ s ≠ "" := by
  rw [← Bool.not_eq_true, not_iff_not, String.isEmpty_iff]

theorem jsStrTruthy_iff (c : Cell) :
    jsStrTruthy c = true ↔ ∃ s, c = some s ∧ s ≠ "" := by
  cases c <;> simp [jsStrTruthy, string_isEmpty_false_iff]

/-- Claim C4 counterexample. The validity filter keeps a record whose name
cell is whitespace only (its name trims to the empty string) and keeps a
record whose id cell coerces to the negative number -1 — both records the
claim says are dropped before load. -/
theorem record_validity_counterexample :
    keep (mapRow [some "1", none, some " "]) = true ∧
      trimmedString " " = "" ∧
      keep (mapRow [some "-1", none, some "Mug"]) = true ∧
      (mapRow [some "-1", none, some "Mug"]).id = some (-1) ∧ ¬((0 : ℚ) < -1) := by
  decide

/-- Claim C4 (corrected). A mapped record is kept if and only if its id cell
coerces to a number other than 0 (NaN excluded; negative and fractional ids
are accepted) and its name cell holds a non-empty string with no trimming
applied (whitespace-only names are accepted). -/
theorem record_validity_amended (raw : RawRow) :
    keep (mapRow raw) = true ↔
      ((∃ q, jsNumberOfCell (cellAt raw 0) = some q ∧ q ≠ 0) ∧
        ∃ s, cellAt raw 2 = some s ∧ s ≠ "") := by
  unfold keep mapRow
  simp only [Bool.and_eq_true, orNull_truthy, jsNumTruthy_iff, jsStrTruthy_iff]

/-- Claim C5 counterexample. A run that fails with invalid configuration,
triggered through the manual sync route, is answered with status 200 and
success true rather than the claimed 500 with the error message. -/
theorem error_propagation_counterexample :
    (syncData false badCfg (some [mugRow]) [] stPrior).1 = SyncOutcome.configInvalid ∧
      (handleSyncGet false badCfg (some [mugRow]) [] stPrior).1 = ⟨200, true⟩ ∧
      (handleSyncGet false badCfg (some [mugRow]) [] stPrior).1.statusCode ≠ 500 := by
  decide

/-- Claim C5 (corrected). Failures are never rethrown to any trigger: the
catch inside syncData swallows every error, so scheduled and startup runs
cannot crash the process, and the manual sync route always answers 200 with
success true whatever the outcome of the run — its 500 branch is
unreachable, so success on the manual route does not imply the run
succeeded. -/
theorem error_propagation_amended (running : Bool) (cfg : Config)
    (src : Option (List RawRow)) (faults : List Bool) (st : Store) :
    (handleSyncGet running cfg src faults st).1 = ⟨200, true⟩ ∧
      syncDataRejects (syncData running cfg src faults st).1 = false :=
  ⟨rfl, rfl⟩

/-- Claim C6 counterexample. On the scenario rows the mapper keeps exactly
the first record, but its price is 999, not 9.99: the comma of 9,99 is
stripped as a grouping separator before the decimal coercion. -/
theorem price_scenario_counterexample :
    validProducts [mugRow, emptyNameRow] = [mapRow mugRow] ∧
      (mapRow mugRow).price = some 999 ∧
      (mapRow mugRow).price ≠ some (999 / 100) := by
  refine ⟨by decide, by decide, ?_⟩
  have h : (mapRow mugRow).price = some 999 := by decide
  rw [h]
  intro hc
  have h9 : (999 : ℚ) = 999 / 100 := Option.some.inj hc
  norm_num at h9

/-- Claim C6 (corrected). On the scenario rows the mapper yields exactly one
valid record with id 1 and price 999 (comma stripped, so the numeral reads
nine hundred ninety nine) and drops the second row for its empty name; the
store ends with exactly that one row. -/
theorem price_scenario_amended :
    validProducts [mugRow, emptyNameRow] = [mapRow mugRow] ∧
      (mapRow mugRow).id = some 1 ∧
      (mapRow mugRow).price = some 999 ∧
      keep (mapRow emptyNameRow) = false ∧
      syncData false goodCfg (some [mugRow, emptyNameRow]) [] stPrior =
        (SyncOutcome.success, ⟨true, [mapRow mugRow]⟩) := by
  decide

theorem insertAll_dup (ps : List Product) (acc : List Product)
    (hacc : (acc.map Product.id).Nodup)
    (h : ¬ (acc.map Product.id ++ ps.map Product.id).Nodup) :
    insertAll ps acc = none := by
  induction ps generalizing acc with
  | nil =>
    simp only [List.map_nil, List.append_nil] at h
    exact absurd hacc h
  | cons p ps ih =>
    by_cases hn : p.name = none
    · simp [insertAll, hn]
    · by_cases hd : acc.any (fun r => decide (r.id = p.id)) = true
      · simp [insertAll, hn, hd]
      · have hnotin : p.id ∉ acc.map Product.id := by
          simp only [List.any_eq_true, decide_eq_true_eq] at hd
          simp only [List.mem_map]
          rintro ⟨r, hr, hrid⟩
          exact hd ⟨r, hr, hrid⟩
        simp only [insertAll, hn, hd, if_false]
        apply ih
        · simp [List.nodup_append, hacc, hnotin]
        · simpa [List.append_assoc] using h

/-- Claim C8 counterexample. Two valid records sharing the id 1: the pass
does not succeed with last-row-wins — the duplicate key makes the write fail,
the store keeps its prior row set, and in particular it does not end holding
the last occurrence. -/
theorem duplicate_id_counterexample :
    (validProducts [dupRowA, dupRowB]).map Product.id = [some 1, some 1] ∧
      syncData false goodCfg (some [dupRowA, dupRowB]) [] stPrior =
        (SyncOutcome.writeFailed, stPrior) ∧
      (syncData false goodCfg (some [dupRowA, dupRowB]) [] stPrior).2.rows ≠
        [mapRow dupRowB] := by
  decide

/-- Claim C8 (corrected). Whenever the valid record set contains two or more
records with the same id, some insert statement violates the primary-key
constraint: the pass fails with a write failure, the transaction rolls back,
and the store keeps its prior row set — there is no last-row-wins commit. -/
theorem duplicate_id_amended (cfg : Config) (rows : List RawRow) (st : Store)
    (h1 : cfg.valid = true)
    (h2 : ¬ ((validProducts rows).map Product.id).Nodup) :
    syncData false cfg (some rows) [] st = (SyncOutcome.writeFailed, st) := by
  have hne : (validProducts rows).isEmpty = false := by
    cases hps : validProducts rows with
    | nil => rw [hps] at h2; simp at h2
    | cons a l => simp [hps]
  have hnone : insertAll (validProducts rows) [] = none :=
    insertAll_dup _ [] (by simp) (by simpa using h2)
  simp [syncData, h1, hne, syncWrite_closed, hnone]

/-- Witness for C8 as corrected: the two concrete duplicate-id rows make the
pass fail with the prior store preserved. -/
theorem duplicate_id_amended_witness :
    Config.valid goodCfg = true ∧
      ¬ ((validProducts [dupRowA, dupRowB]).map Product.id).Nodup ∧
      syncData false goodCfg (some [dupRowA, dupRowB]) [] stPrior =
        (SyncOutcome.writeFailed, stPrior) :=
  ⟨by decide, by decide,
    duplicate_id_amended goodCfg [dupRowA, dupRowB] stPrior (by decide) (by decide)⟩

/-- A stored bilingual row carrying values only in the default locale. -/
def zhOnlyRow : DbRow where
  id := 1
  category := none
  price := 10
  image_url := none
  stock := 0
  status := some "上架"
  name_zh := some "名"
  display_desc_zh := some "Desc"
  gift_detail_desc_zh := some "G"
  product_desc_zh := some "P"
  product_specs_zh := some "S"
  shipping_info_zh := some "Sh"
  name_en := none
  display_desc_en := none
  gift_detail_desc_en := none
  product_desc_en := none
  product_specs_en := none
  shipping_info_en := none

/-- Claim C7 counterexample. On a stored row holding only default-locale
values, the locale mapper requested with lang en returns the zh value for
name, but returns the empty string — not the zh value — for the display
description field. -/
theorem locale_fallback_counterexample :
    zhOnlyRow.display_desc_zh = some "Desc" ∧
      (mapProductByLang zhOnlyRow "en").display_desc = "" ∧
      (mapProductByLang zhOnlyRow "en").display_desc ≠ "Desc" ∧
      (mapProductByLang zhOnlyRow "en").name = some "名" := by
  decide

/-- Claim C7 (corrected). When every en column of a stored row is absent, a
lookup for lang en falls back to the default-locale value only for the name
field; the display description, gift detail description, product
description, product specs and shipping info fields fall back to the empty
string instead of the zh value. -/
theorem locale_fallback_amended (row : DbRow)
    (h : row.name_en = none ∧ row.display_desc_en = none ∧
      row.gift_detail_desc_en = none ∧ row.product_desc_en = none ∧
      row.product_specs_en = none ∧ row.shipping_info_en = none) :
    (mapProductByLang row "en").name = row.name_zh ∧
      (mapProductByLang row "en").display_desc = "" ∧
      (mapProductByLang row "en").gift_detail_desc = "" ∧
      (mapProductByLang row "en").product_desc = "" ∧
      (mapProductByLang row "en").product_specs = "" ∧
      (mapProductByLang row "en").shipping_info = "" := by
  obtain ⟨h1, h2, h3, h4, h5, h6⟩ := h
  simp [mapProductByLang, jsOrOpt, jsOrEmptyStr, jsStrTruthy, h1, h2, h3, h4, h5, h6]

/-- Witness for C7 as corrected, at the concrete zh-only row. -/
theorem locale_fallback_amended_witness :
    (zhOnlyRow.name_en = none ∧ zhOnlyRow.display_desc_en = none ∧
      zhOnlyRow.gift_detail_desc_en = none ∧ zhOnlyRow.product_desc_en = none ∧
      zhOnlyRow.product_specs_en = none ∧ zhOnlyRow.shipping_info_en = none) ∧
    ((mapProductByLang zhOnlyRow "en").name = zhOnlyRow.name_zh ∧
      (mapProductByLang zhOnlyRow "en").display_desc = "" ∧
      (mapProductByLang zhOnlyRow "en").gift_detail_desc = "" ∧
      (mapProductByLang zhOnlyRow "en").product_desc = "" ∧
      (mapProductByLang zhOnlyRow "en").product_specs = "" ∧
      (mapProductByLang zhOnlyRow "en").shipping_info = "") :=
  ⟨by decide, locale_fallback_amended zhOnlyRow (by decide)⟩

theorem listMapExt {α β : Type} (f g : α → β) (l : List α) (h : ∀ a, f a = g a) :
    l.map f = l.map g := by
  induction l with
  | nil => rfl
  | cons a l ih => simp [h, ih]

theorem mapProductByLang_not_en (row : DbRow) (lang : String) (h : lang ≠ "en") :
    mapProductByLang row lang = mapProductByLang row "zh" := by
  simp [mapProductByLang, h]

/-- A one-row published table for the locale endpoint witness. -/
def dbOne : List DbRow := [zhOnlyRow]

/-- Claim C10 (confirmed). Unrecognized locale defaults: a products request
whose lowercased lang is not en is served exactly the zh output; the
response depends on the lang parameter only through whether its lowercase
equals en; and the locale-independent fields of every mapped row are
returned unchanged for every lang. -/
theorem unrecognized_locale_default (db : List DbRow) (langParam l1 l2 : Cell)
    (row : DbRow) (lang : String)
    (h : jsToLowerCase (jsOrDefault langParam "zh") ≠ "en")
    (h12 : jsToLowerCase (jsOrDefault l1 "zh") = "en" ↔
      jsToLowerCase (jsOrDefault l2 "zh") = "en") :
    apiProducts langParam db = apiProducts (some "zh") db ∧
      apiProducts l1 db = apiProducts l2 db ∧
      (mapProductByLang row lang).id = row.id ∧
      (mapProductByLang row lang).category = row.category ∧
      (mapProductByLang row lang).price = row.price ∧
      (mapProductByLang row lang).image_url = row.image_url ∧
      (mapProductByLang row lang).stock = row.stock ∧
      (mapProductByLang row lang).status = row.status := by
  have hzh : jsToLowerCase (jsOrDefault (some "zh") "zh") = "zh" := by decide
  refine ⟨?_, ?_, rfl, rfl, rfl, rfl, rfl, rfl⟩
  · unfold apiProducts
    rw [hzh]
    exact listMapExt _ _ _ (fun r => mapProductByLang_not_en r _ h)
  · by_cases hl : jsToLowerCase (jsOrDefault l1 "zh") = "en"
    · have hl2 := h12.mp hl
      unfold apiProducts
      rw [hl, hl2]
    · have hl2 : jsToLowerCase (jsOrDefault l2 "zh") ≠ "en" := fun hx => hl (h12.mpr hx)
      unfold apiProducts
      exact (listMapExt _ _ _ (fun r => mapProductByLang_not_en r _ hl)).trans
        (listMapExt _ _ _ (fun r => mapProductByLang_not_en r _ hl2)).symm

/-- Witness for C10 at concrete inputs: lang fr is served the zh output, and
the two non-en parameters EN-with-space and de are served identically. -/
theorem unrecognized_locale_default_witness :
    jsToLowerCase (jsOrDefault (some "fr") "zh") ≠ "en" ∧
      (jsToLowerCase (jsOrDefault (some "EN ") "zh") = "en" ↔
        jsToLowerCase (jsOrDefault (some "de") "zh") = "en") ∧
      (apiProducts (some "fr") dbOne = apiProducts (some "zh") dbOne ∧
        apiProducts (some "EN ") dbOne = apiProducts (some "de") dbOne ∧
        (mapProductByLang zhOnlyRow "fr").id = zhOnlyRow.id ∧
        (mapProductByLang zhOnlyRow "fr").category = zhOnlyRow.category ∧
        (mapProductByLang zhOnlyRow "fr").price = zhOnlyRow.price ∧
        (mapProductByLang zhOnlyRow "fr").image_url = zhOnlyRow.image_url ∧
        (mapProductByLang zhOnlyRow "fr").stock = zhOnlyRow.stock ∧
        (mapProductByLang zhOnlyRow "fr").status = zhOnlyRow.status) :=
  ⟨by decide, by decide,
    unrecognized_locale_default dbOne (some "fr") (some "EN ") (some "de") zhOnlyRow "fr"
      (by decide) (by decide)⟩

namespace Guard

theorem inv_init : Inv init := by
  constructor <;> simp [init, TaskPhase.isRun]

theorem inv_step (w1 w2 : Nat) (s : GuardState) (c : Bool) (h : Inv s) :
    Inv (stepTask w1 w2 s c) := by
  obtain ⟨g, t1, t2⟩ := s
  obtain ⟨h1, h2⟩ := h
  cases c
  · cases t1 with
    | pending => cases g <;> simp_all [Inv, stepTask, stepPhase, TaskPhase.isRun]
    | running k => cases k <;> simp_all [Inv, stepTask, stepPhase, TaskPhase.isRun]
    | finished b => simp_all [Inv, stepTask, stepPhase, TaskPhase.isRun]
  · cases t2 with
    | pending => cases g <;> simp_all [Inv, stepTask, stepPhase, TaskPhase.isRun]
    | running k => cases k <;> simp_all [Inv, stepTask, stepPhase, TaskPhase.isRun]
    | finished b => simp_all [Inv, stepTask, stepPhase, TaskPhase.isRun]

theorem inv_exec (w1 w2 : Nat) (σ : List Bool) (s : GuardState) (h : Inv s) :
    Inv (exec w1 w2 s σ) := by
  induction σ generalizing s with
  | nil => exact h
  | cons c σ ih => exact ih _ (inv_step w1 w2 s c h)

theorem exec_t2_finished (w1 w2 : Nat) (σ : List Bool) (s : GuardState) (b : Bool)
    (h : s.t2 = .finished b) : (exec w1 w2 s σ).t2 = .finished b := by
  induction σ generalizing s with
  | nil => exact h
  | cons c σ ih =>
    apply ih
    obtain ⟨g, t1, t2⟩ := s
    cases c <;> simp_all [stepTask, stepPhase]

/-- A task that has already entered the pipeline: it is still running or has
finished a complete (non-skipped) run. -/
def RunOrDone (ph : TaskPhase) : Prop := (∃ k, ph = .running k) ∨ ph = .finished false

theorem exec_t1_progress (w1 w2 : Nat) (σ : List Bool) (s : GuardState)
    (h : RunOrDone s.t1) : RunOrDone (exec w1 w2 s σ).t1 := by
  induction σ generalizing s with
  | nil => exact h
  | cons c σ ih =>
    apply ih
    obtain ⟨g, t1, t2⟩ := s
    cases c
    · rcases h with ⟨k, hk⟩ | hf
      · simp only at hk
        subst hk
        cases k with
        | zero => exact Or.inr rfl
        | succ k => exact Or.inl ⟨k, rfl⟩
      · simp only at hf
        subst hf
        exact Or.inr rfl
    · simpa [stepTask] using h

/-- Claim C2 (confirmed). Single-flight guard, over every interleaving of
two syncData invocations: (first conjunct) at no reachable point are both
invocations executing the pipeline; (second) an invocation firing while the
other is in flight takes the early return in its synchronous prologue —
finishing immediately as skipped-already-running and leaving the guard flag
and the in-flight run untouched; (third and fourth) in any continuation in
which both invocations have finished, the in-flight one is the only
completed run and the late one reports skipped. -/
theorem single_flight_guard (w1 w2 : Nat) (σ' σ σ₂ : List Bool) (k : Nat) (b1 b2 : Bool)
    (h1 : (exec w1 w2 init σ).t1 = .running k)
    (h2 : (exec w1 w2 init σ).t2 = .pending)
    (h3 : (exec w1 w2 (stepTask w1 w2 (exec w1 w2 init σ) true) σ₂).t1 = .finished b1)
    (h4 : (exec w1 w2 (stepTask w1 w2 (exec w1 w2 init σ) true) σ₂).t2 = .finished b2) :
    (((exec w1 w2 init σ').t1.isRun && (exec w1 w2 init σ').t2.isRun) = false) ∧
      stepTask w1 w2 (exec w1 w2 init σ) true =
        { exec w1 w2 init σ with t2 := .finished true } ∧
      b1 = false ∧ b2 = true := by
  have hinv' := inv_exec w1 w2 σ' init inv_init
  have hinv := inv_exec w1 w2 σ init inv_init
  refine ⟨?_, ?_, ?_, ?_⟩
  · rcases hb1 : (exec w1 w2 init σ').t1.isRun with _ | _ <;>
      rcases hb2 : (exec w1 w2 init σ').t2.isRun with _ | _ <;>
      simp_all [Inv]
  · have hg : (exec w1 w2 init σ).guard = true := by
      have := hinv.1
      rw [h1] at this
      simp [TaskPhase.isRun] at this
      exact this
    have hstep : stepPhase (exec w1 w2 init σ).guard (exec w1 w2 init σ).t2 w2 =
        ((exec w1 w2 init σ).guard, .finished true) := by
      rw [h2, hg]
      simp [stepPhase, hg]
    simp only [stepTask, hstep]
  · have hro : RunOrDone (stepTask w1 w2 (exec w1 w2 init σ) true).t1 := by
      simp only [stepTask]
      exact Or.inl ⟨k, h1⟩
    have := exec_t1_progress w1 w2 σ₂ _ hro
    rw [h3] at this
    rcases this with ⟨j, hj⟩ | hf
    · exact absurd hj (by simp)
    · simpa using hf
  · have hg : (exec w1 w2 init σ).guard = true := by
      have := hinv.1
      rw [h1] at this
      simp [TaskPhase.isRun] at this
      exact this
    have ht2 : (stepTask w1 w2 (exec w1 w2 init σ) true).t2 = .finished true := by
      simp [stepTask, h2, stepPhase, hg]
    have := exec_t2_finished w1 w2 σ₂ _ true ht2
    rw [h4] at this
    simpa using this.symm

/-- Witness for C2: the first invocation starts (one awaited operation
remaining), the second fires mid-flight and is skipped, and after the first
finishes, exactly the first completed and exactly the second skipped. -/
theorem single_flight_guard_witness :
    (exec 1 5 init [false]).t1 = .running 1 ∧
      (exec 1 5 init [false]).t2 = .pending ∧
      (exec 1 5 (stepTask 1 5 (exec 1 5 init [false]) true) [false, false]).t1 =
        .finished false ∧
      (exec 1 5 (stepTask 1 5 (exec 1 5 init [false]) true) [false, false]).t2 =
        .finished true ∧
      ((((exec 1 5 init [false, true]).t1.isRun &&
          (exec 1 5 init [false, true]).t2.isRun) = false) ∧
        stepTask 1 5 (exec 1 5 init [false]) true =
          { exec 1 5 init [false] with t2 := .finished true } ∧
        false = false ∧ true = true) :=
  ⟨by decide, by decide, by decide, by decide,
    single_flight_guard 1 5 [false, true] [false] [false, false] 1 false true
      (by decide) (by decide) (by decide) (by decide)⟩

end Guard

end GiftShopSync
